import Mathlib

/-!
# Verification of the replicate-go streaming subsystem

A shallow embedding of the SSE (Server-Sent Events) streaming subsystem of the
replicate-go client library, together with proofs about its behaviour.

Byte strings are modelled as `List Nat` (each entry one byte, `10` = LF,
`32` = space, `58` = colon).  `ascii s` converts an ASCII Lean string literal
to its byte-list representation.

Components embedded here, each from its Go source:
* `decoderNext` — `Decoder.Next` of package `internal/sse` (decoder.go);
* `decodeSSEEvent` — `decodeSSEEvent` of stream.go (package replicate);
* `Streamer` (`connect` / `nextEvent`) — `Streamer` of package `internal/sse`
  (stream.go, the loop-based version with `ErrMaximumRetries`);
* `streamEventsTo` / `streamTextTo` / `streamFilesTo` — the typed projections
  of stream.go (package replicate);
* `fileStreamerNextFile` — `fileStreamer.NextFile` (the `FileStreamer`
  variant of the file projection);
* `shouldRetry` / `clientDo` — the retry-capable request layer (`Client.do`);
* `exponentialNextDelay` — `ExponentialBackoff.NextDelay` of backoff.go.
-/

/-- Bytes of an ASCII string literal (all literals used here are ASCII, so the
code points coincide with the UTF-8 bytes Go operates on). -/
def ascii (s : String) : List Nat := s.data.map Char.toNat

/-- `bytes.TrimPrefix(value, []byte{' '})`: remove at most one leading space
byte, as both decoders do on field values. -/
def trimOneSpace : List Nat → List Nat
  | 32 :: rest => rest
  | l => l

/-- An SSE event as decoded by package `internal/sse` (`Event` in decoder.go):
`ty` is the Go field `Type`, `id` is `ID`, `data` is `Data`. -/
structure Event where
  ty : List Nat
  id : List Nat
  data : List Nat
deriving DecidableEq, Repr

/-- Result of one `Decoder.Next` call on a byte stream:
`ok e rest` models `(e, nil)` with `rest` the unconsumed bytes, and
`unexpectedEnd e` models `(e, io.ErrUnexpectedEOF)` (the reader hit
end-of-input before a terminating blank line). -/
inductive SSEDecodeRes where
  | ok (e : Event) (rest : List Nat)
  | unexpectedEnd (e : Event)
deriving DecidableEq, Repr

/-- The loop body of `Decoder.Next` (internal/sse/decoder.go).  `t`, `i`, `d`
are the accumulators for event type, id and data; `line` holds the bytes of
the current line read so far (Go's `bufio.Reader.ReadBytes('\n')` state).
A completed line always ends in the LF byte; a lone LF finishes the event.
`event:`/`id:` values drop the trailing LF, `data:` values keep it; each value
has at most one leading space removed.  Reaching end-of-input returns the
accumulated event together with `io.ErrUnexpectedEOF`, discarding any
partially-read line (as `ReadBytes` data is dropped on `err == io.EOF`). -/
def decodeNextLoop (t i d line : List Nat) : List Nat → SSEDecodeRes
  | [] => .unexpectedEnd ⟨t, i, d⟩
  | b :: rest =>
    if b = 10 then
      if line = [] then .ok ⟨t, i, d⟩ rest
      else
        let full := line ++ [10]
        if (ascii "event:").isPrefixOf full then
          decodeNextLoop (trimOneSpace ((full.drop 6).dropLast)) i d [] rest
        else if (ascii "data:").isPrefixOf full then
          decodeNextLoop t i (d ++ trimOneSpace (full.drop 5)) [] rest
        else if (ascii "id:").isPrefixOf full then
          decodeNextLoop t (trimOneSpace ((full.drop 3).dropLast)) d [] rest
        else
          decodeNextLoop t i d [] rest
    else decodeNextLoop t i d (line ++ [b]) rest

/-- `Decoder.Next` of internal/sse/decoder.go on the remaining input bytes. -/
def decoderNext (input : List Nat) : SSEDecodeRes :=
  decodeNextLoop [] [] [] [] input

/-- `true` iff the input contains a terminating blank line, i.e. some line (in
the `ReadBytes('\n')` sense, starting from partial line `line`) is exactly an
LF.  Mirrors the line structure walked by `decodeNextLoop`. -/
def containsBlankLine (line : List Nat) : List Nat → Bool
  | [] => false
  | b :: rest =>
    if b = 10 then
      if line = [] then true else containsBlankLine [] rest
    else containsBlankLine (line ++ [b]) rest

theorem decodeNextLoop_no_blank (t i d line input : List Nat)
    (h : containsBlankLine line input = false) :
    ∃ e, decodeNextLoop t i d line input = .unexpectedEnd e := by
  induction input generalizing t i d line with
  | nil => exact ⟨⟨t, i, d⟩, rfl⟩
  | cons b rest ih =>
    simp only [containsBlankLine] at h
    simp only [decodeNextLoop]
    by_cases hb : b = 10
    · simp only [hb, if_true] at h ⊢
      by_cases hl : line = []
      · simp [hl] at h
      · simp only [hl, if_false] at h ⊢
        split
        · exact ih _ _ _ _ h
        · split
          · exact ih _ _ _ _ h
          · split
            · exact ih _ _ _ _ h
            · exact ih _ _ _ _ h
    · simp only [hb, if_false] at h ⊢
      exact ih _ _ _ _ h

/-- **C4.** If the input ends before a terminating blank line is seen, the
decoder's `Next` returns the unexpected-end-of-stream result (Go:
`io.ErrUnexpectedEOF`), never a silently accepted event (`ok`). -/
theorem decoderNext_unexpected_end_of_stream (input : List Nat)
    (h : containsBlankLine [] input = false) :
    (∃ e, decoderNext input = .unexpectedEnd e) ∧
      ∀ e rest, decoderNext input ≠ .ok e rest := by
  obtain ⟨e, he⟩ := decodeNextLoop_no_blank [] [] [] [] input h
  exact ⟨⟨e, he⟩, fun e' rest h' => by rw [decoderNext] at h'; simp [h'] at he⟩

/-- Witness for C4: the fragment `"data: x\n"` has no terminating blank line
and decodes to the unexpected-end-of-stream result. -/
theorem decoderNext_unexpected_end_of_stream_witness :
    containsBlankLine [] (ascii "data: x\n") = false ∧
      ((∃ e, decoderNext (ascii "data: x\n") = .unexpectedEnd e) ∧
        ∀ e rest, decoderNext (ascii "data: x\n") ≠ .ok e rest) :=
  ⟨by decide, decoderNext_unexpected_end_of_stream _ (by decide)⟩

/-- **C5.** Multiple `data:` lines are assembled in arrival order, each
keeping its trailing newline: `"data:a\ndata:b\ndata:c\n\n"` decodes to
`Data == "a\nb\nc\n"`; `"event: output\nid: 1\ndata: foo\n\n"` decodes to
`{Type:"output", ID:"1", Data:"foo\n"}`; and at most one leading space is
removed from each field value (`"data:  x\n\n"` keeps the second space). -/
theorem decoderNext_data_order :
    decoderNext (ascii "data:a\ndata:b\ndata:c\n\n") =
        .ok ⟨[], [], ascii "a\nb\nc\n"⟩ [] ∧
      decoderNext (ascii "event: output\nid: 1\ndata: foo\n\n") =
        .ok ⟨ascii "output", ascii "1", ascii "foo\n"⟩ [] ∧
      decoderNext (ascii "data:  x\n\n") = .ok ⟨[], [], ascii " x\n"⟩ [] := by
  refine ⟨by decide, by decide, by decide⟩

/-- An SSE event as decoded by stream.go's `decodeSSEEvent` (`SSEEvent` in
package replicate): `ty`/`id`/`data` are the Go fields `Type`/`ID`/`Data`. -/
structure SSEEvent where
  ty : List Nat
  id : List Nat
  data : List Nat
deriving DecidableEq, Repr

/-- `bytes.Split(b, []byte("\n"))`: split on every LF byte; always returns at
least one (possibly empty) piece. -/
def splitOnNL : List Nat → List (List Nat)
  | [] => [[]]
  | b :: rest =>
    if b = 10 then [] :: splitOnNL rest
    else
      match splitOnNL rest with
      | [] => [[b]]
      | l :: ls => (b :: l) :: ls

/-- `bytes.SplitN(line, []byte{':'}, 2)`: the field name before the first
colon, and (when a colon exists) the remainder after it. -/
def splitOnceColon : List Nat → List Nat × Option (List Nat)
  | [] => ([], none)
  | b :: rest =>
    if b = 58 then ([], some rest)
    else
      let fv := splitOnceColon rest
      (b :: fv.1, fv.2)

/-- The field-parsing loop of `decodeSSEEvent` (stream.go): fold the split
lines over the accumulators (`Type`, `ID`, data chunks).  A line without a
colon has a nil value (`string(nil) = ""`, modelled as `[]`); each value has
at most one leading space removed; unknown fields are ignored. -/
def decodeSSELines : List (List Nat) → List Nat → List Nat → List (List Nat) →
    List Nat × List Nat × List (List Nat)
  | [], t, i, chunks => (t, i, chunks)
  | line :: rest, t, i, chunks =>
    let fv := splitOnceColon line
    let value := match fv.2 with
      | some v => trimOneSpace v
      | none => []
    if fv.1 = ascii "id" then decodeSSELines rest t value chunks
    else if fv.1 = ascii "event" then decodeSSELines rest value i chunks
    else if fv.1 = ascii "data" then decodeSSELines rest t i (chunks ++ [value])
    else decodeSSELines rest t i chunks

/-- Go's `utf8.Valid`: the byte list is a well-formed UTF-8 encoding
(RFC 3629: no byte above 0xF4, no overlong forms, no surrogates, code points
at most U+10FFFF, complete multi-byte sequences). -/
def utf8Valid : List Nat → Bool
  | [] => true
  | b :: rest =>
    if b < 0x80 then utf8Valid rest
    else if b < 0xC2 then false
    else if b ≤ 0xDF then
      match rest with
      | c1 :: rest' => (0x80 ≤ c1 && c1 ≤ 0xBF) && utf8Valid rest'
      | [] => false
    else if b ≤ 0xEF then
      match rest with
      | c1 :: c2 :: rest' =>
        ((if b = 0xE0 then 0xA0 else 0x80) ≤ c1 &&
            c1 ≤ (if b = 0xED then 0x9F else 0xBF)) &&
          ((0x80 ≤ c2 && c2 ≤ 0xBF) && utf8Valid rest')
      | _ => false
    else if b ≤ 0xF4 then
      match rest with
      | c1 :: c2 :: c3 :: rest' =>
        ((if b = 0xF0 then 0x90 else 0x80) ≤ c1 &&
            c1 ≤ (if b = 0xF4 then 0x8F else 0xBF)) &&
          ((0x80 ≤ c2 && c2 ≤ 0xBF) &&
            ((0x80 ≤ c3 && c3 ≤ 0xBF) && utf8Valid rest'))
      | _ => false
    else false

/-- The `Data` a block assembles in `decodeSSEEvent`: the `data:` field values
joined by LF. -/
def sseAssembledData (b : List Nat) : List Nat :=
  List.intercalate [10]
    (decodeSSELines (splitOnNL b) (ascii "message") [] []).2.2

/-- The only decode error of `decodeSSEEvent`: `ErrInvalidUTF8Data`. -/
inductive SSEDecodeErr where
  | invalidUTF8Data
deriving DecidableEq, Repr

/-- `decodeSSEEvent` (stream.go): parse one raw SSE block.  `Type` defaults to
`"message"`.  Non-UTF-8 assembled data is `ErrInvalidUTF8Data`; an event with
empty data whose type is not `"done"` is skipped (`nil, nil`, modelled as
`ok none`). -/
def decodeSSEEvent (b : List Nat) : Except SSEDecodeErr (Option SSEEvent) :=
  let acc := decodeSSELines (splitOnNL b) (ascii "message") [] []
  let data := List.intercalate [10] acc.2.2
  if utf8Valid data then
    if data = [] ∧ acc.1 ≠ ascii "done" then .ok none
    else .ok (some ⟨acc.1, acc.2.1, data⟩)
  else .error .invalidUTF8Data

/-- **C3 (counterexample).** The claim fails for the `internal/sse` decoder,
one of the two decode paths: on the block `"data:\xFF\n\n"` whose assembled
data `[0xFF, LF]` is not valid UTF-8, `Decoder.Next` returns the event (with
the raw bytes) and no error at all. -/
theorem decoderNext_accepts_invalid_utf8 :
    decoderNext ([100, 97, 116, 97, 58, 255] ++ [10, 10]) =
        .ok ⟨[], [], [255, 10]⟩ [] ∧
      utf8Valid [255, 10] = false := by decide

/-- **C3 (amended).** `decodeSSEEvent` (stream.go) returns the
invalid-UTF-8-data error, rather than an event, whenever the assembled `Data`
of the block is not valid UTF-8.  (The `internal/sse` decoder performs no
UTF-8 validation.) -/
theorem decodeSSEEvent_invalid_utf8 (b : List Nat)
    (h : utf8Valid (sseAssembledData b) = false) :
    decodeSSEEvent b = .error .invalidUTF8Data := by
  rw [decodeSSEEvent]
  rw [sseAssembledData] at h
  simp only [h, Bool.false_eq_true, if_false]

/-- Witness for the amended C3: the block `"data:\xFF"` assembles the single
byte `0xFF`, which is not valid UTF-8, and decoding it errors. -/
theorem decodeSSEEvent_invalid_utf8_witness :
    utf8Valid (sseAssembledData [100, 97, 116, 97, 58, 255]) = false ∧
      decodeSSEEvent [100, 97, 116, 97, 58, 255] = .error .invalidUTF8Data :=
  ⟨by decide, decodeSSEEvent_invalid_utf8 _ (by decide)⟩

/-- The state of an `internal/sse` `Streamer` (stream.go): retry cap, attempt
counter, stored `lastEventID`, and the current decoder's remaining bytes
(`none` models `s.decoder == nil`).  `connLog` records, per established
connection, the `Last-Event-ID` header sent on its request (`none` = header
absent), so that proofs can speak about what the server observed. -/
structure StreamerState where
  maxRetries : Nat
  attempt : Nat
  lastEventID : List Nat
  current : Option (List Nat)
  connLog : List (Option (List Nat))
deriving DecidableEq, Repr

/-- `NewStreamer`: zero attempt counter, empty `lastEventID`, no decoder. -/
def newStreamer (maxRetries : Nat) : StreamerState :=
  ⟨maxRetries, 0, [], none, []⟩

/-- The remote SSE endpoint, modelled as a function from the connection index
(how many connections were established before) and the `Last-Event-ID`
request header to the byte stream served on that connection.  Every request
is answered with status 200 (the claims under study exercise no transport
failures and no non-200 responses). -/
def SSEServer := Nat → Option (List Nat) → List Nat

/-- Errors surfaced by the modelled `Streamer`: `maximumRetries` is
`ErrMaximumRetries` (`"Exceeded maximum retries"`). -/
inductive StreamErr where
  | maximumRetries
deriving DecidableEq, Repr

/-- `Streamer.connect` (internal/sse stream.go, loop version): fail with
`ErrMaximumRetries` when `s.attempt > s.maxRetries`; otherwise send a GET
carrying `Last-Event-ID: s.lastEventID` exactly when the stored id is
non-empty, increment the attempt counter and install the response body as the
new decoder input.  The backoff sleep has no observable effect in this
untimed model; the loop re-runs only on a transport error, which the modelled
server never produces, so one pass covers the call. -/
def connect (server : SSEServer) (st : StreamerState) :
    Except StreamErr StreamerState :=
  if st.attempt > st.maxRetries then .error .maximumRetries
  else
    let hdr := if st.lastEventID ≠ [] then some st.lastEventID else none
    let body := server st.connLog.length hdr
    .ok { st with
            attempt := st.attempt + 1
            current := some body
            connLog := st.connLog ++ [hdr] }

/-- The `for` loop of `Streamer.NextEvent`: decode the next event from the
current input; on a delivered event store its `ID` into `lastEventID`; on
end-of-stream reconnect and retry.  The structural budget `b` counts the
reconnects still permitted (`maxRetries + 1 - attempt`); it reaches the
0-branch only if started below that bound, since a successful `connect`
requires `attempt ≤ maxRetries` — see `nextEventLoop_budget_stable`. -/
def nextEventLoop (server : SSEServer) :
    Nat → StreamerState → List Nat → Except StreamErr (Event × StreamerState)
  | b, st, input =>
    match decoderNext input with
    | .ok e rest =>
      .ok (e, { st with current := some rest, lastEventID := e.id })
    | .unexpectedEnd _ =>
      match connect server st with
      | .error er => .error er
      | .ok st' =>
        match b with
        | 0 => .error .maximumRetries
        | b' + 1 => nextEventLoop server b' st' (st'.current.getD [])

/-- `Streamer.NextEvent`: connect first if no decoder is installed, then run
the decode/reconnect loop. -/
def nextEvent (server : SSEServer) (st : StreamerState) :
    Except StreamErr (Event × StreamerState) :=
  match st.current with
  | none =>
    match connect server st with
    | .error er => .error er
    | .ok st' =>
      nextEventLoop server (st'.maxRetries + 1 - st'.attempt) st'
        (st'.current.getD [])
  | some input =>
    nextEventLoop server (st.maxRetries + 1 - st.attempt) st input

theorem connect_ok_inv {server : SSEServer} {st st' : StreamerState}
    (h : connect server st = .ok st') :
    st.attempt ≤ st.maxRetries ∧ st'.attempt = st.attempt + 1 ∧
      st'.maxRetries = st.maxRetries ∧ st'.lastEventID = st.lastEventID := by
  rw [connect] at h
  split at h
  · exact absurd h (by simp)
  · injection h with h'
    subst h'
    refine ⟨by omega, rfl, rfl, rfl⟩

/-- The reconnect budget is immaterial as soon as it is at least
`maxRetries + 1 - attempt`: the loop's 0-branch is unreachable because
`connect` fails first. -/
theorem nextEventLoop_budget_stable (server : SSEServer) :
    ∀ b b' st input, st.maxRetries + 1 - st.attempt ≤ b →
      st.maxRetries + 1 - st.attempt ≤ b' →
      nextEventLoop server b st input = nextEventLoop server b' st input := by
  intro b
  induction b with
  | zero =>
    intro b' st input hb _
    rw [nextEventLoop, nextEventLoop]
    cases hdec : decoderNext input with
    | ok e rest => rfl
    | unexpectedEnd e =>
      have hc : connect server st = .error .maximumRetries := by
        rw [connect]
        have hgt : st.attempt > st.maxRetries := by omega
        simp [hgt]
      rw [hc]
  | succ b ih =>
    intro b' st input hb hb'
    rw [nextEventLoop, nextEventLoop]
    cases hdec : decoderNext input with
    | ok e rest => rfl
    | unexpectedEnd e =>
      cases hc : connect server st with
      | error er => rfl
      | ok st1 =>
        obtain ⟨hle, hat, hmr, _⟩ := connect_ok_inv hc
        have h1 : st1.maxRetries + 1 - st1.attempt ≤ b := by omega
        cases b' with
        | zero => omega
        | succ b'' =>
          have h2 : st1.maxRetries + 1 - st1.attempt ≤ b'' := by omega
          exact ih b'' st1 (st1.current.getD []) h1 h2

instance instDecEqExcept {ε α : Type} [DecidableEq ε] [DecidableEq α] :
    DecidableEq (Except ε α) := fun a b =>
  match a, b with
  | .ok x, .ok y => decidable_of_iff (x = y) (by simp)
  | .error x, .error y => decidable_of_iff (x = y) (by simp)
  | .ok _, .error _ => isFalse (by simp)
  | .error _, .ok _ => isFalse (by simp)

/-- Drive a `Streamer` for up to `n` `NextEvent` calls, collecting the
delivered events (a caller stops at the first error, as the tests do), and
return the final streamer state. -/
def runStreamer (server : SSEServer) :
    Nat → StreamerState → List (Except StreamErr Event) × StreamerState
  | 0, st => ([], st)
  | n + 1, st =>
    match nextEvent server st with
    | .error er => ([.error er], st)
    | .ok (e, st') =>
      let r := runStreamer server n st'
      (.ok e :: r.1, r.2)

/-- The server of the C1 scenario (mirroring `TestStreamTextWithRetries`):
the first connection serves `event:output / data:foo / id:1` and closes; a
reconnect that presents `Last-Event-ID: 1` is served only
`event:output / data:bar / id:2` followed by `event:done`; a reconnect
without that header would be served the `foo` event again. -/
def c1Server : SSEServer := fun n hdr =>
  if n = 0 then ascii "event: output\ndata: foo\nid: 1\n\n"
  else if hdr = some (ascii "1") then
    ascii "event: output\ndata: bar\nid: 2\n\nevent: done\n\n"
  else
    ascii "event: output\ndata: foo\nid: 1\n\nevent: output\ndata: bar\nid: 2\n\nevent: done\n\n"

/-- **C1.** Once an event has been delivered by `NextEvent` it is never
redelivered after a reconnect: in the C1 scenario the caller sees exactly the
outputs `foo` and `bar` (each exactly once, in order) followed by `done`;
the reconnect carried `Last-Event-ID: 1` (the id of the last delivered
event), the initial connection carried no such header, and the stored
`lastEventID` was `"1"` — the delivered id — at reconnect time even though
the server had closed the connection after the event. -/
theorem streamer_no_redelivery :
    (runStreamer c1Server 3 (newStreamer 1)).1 =
        [.ok ⟨ascii "output", ascii "1", ascii "foo\n"⟩,
          .ok ⟨ascii "output", ascii "2", ascii "bar\n"⟩,
          .ok ⟨ascii "done", [], []⟩] ∧
      (runStreamer c1Server 3 (newStreamer 1)).2.connLog =
        [none, some (ascii "1")] ∧
      ((runStreamer c1Server 3 (newStreamer 1)).1.count
          (.ok ⟨ascii "output", ascii "1", ascii "foo\n"⟩)) = 1 := by
  refine ⟨by decide, by decide, by decide⟩

/-- The server of the C2 counterexample: every reconnect would be served the
rest of the stream, so only the retry cap can stop resumption. -/
def c2Server : SSEServer := fun n _ =>
  if n = 0 then ascii "event: output\ndata: foo\nid: 1\n\n"
  else ascii "event: output\ndata: bar\nid: 2\n\nevent: done\n\n"

/-- **C2 (counterexample).** `maxRetries = 0` is not unbounded: the first
connection delivers `foo`, the connection closes, and the very first
reconnect attempt fails with `ErrMaximumRetries` even though the server would
have served the rest of the stream. -/
theorem streamer_zero_retries_not_unbounded :
    (runStreamer c2Server 2 (newStreamer 0)).1 =
      [.ok ⟨ascii "output", ascii "1", ascii "foo\n"⟩,
        .error .maximumRetries] := by decide

/-- **C2 (amended).** The retry cap is checked uniformly: `connect` (and so a
reconnecting `NextEvent`) fails with `ErrMaximumRetries` exactly when the
attempt counter exceeds `maxRetries` — for `maxRetries = 0` the first
reconnect (attempt 1) already fails, and a positive `maxRetries` allows
exactly that many reconnects before the terminal failure. -/
theorem streamer_retry_cap (server : SSEServer) (st : StreamerState) :
    (st.attempt > st.maxRetries →
        connect server st = .error .maximumRetries) ∧
      (st.attempt ≤ st.maxRetries → ∃ st', connect server st = .ok st' ∧
        st'.attempt = st.attempt + 1) := by
  constructor
  · intro h
    rw [connect]
    simp [h]
  · intro h
    rw [connect]
    have h' : ¬ st.attempt > st.maxRetries := by omega
    simp only [h', if_false]
    exact ⟨_, rfl, rfl⟩

/-- Witness for the amended C2, at the state reached in the counterexample
run: attempt 1 with `maxRetries = 0` is refused, while attempt 1 with
`maxRetries = 1` reconnects. -/
theorem streamer_retry_cap_witness :
    connect c2Server ⟨0, 1, ascii "1", some [], [none]⟩ =
        .error .maximumRetries ∧
      ∃ st', connect c2Server ⟨1, 1, ascii "1", some [], [none]⟩ = .ok st' ∧
        st'.attempt = 2 :=
  ⟨(streamer_retry_cap c2Server ⟨0, 1, ascii "1", some [], [none]⟩).1
      (by decide),
    (streamer_retry_cap c2Server ⟨1, 1, ascii "1", some [], [none]⟩).2
      (by decide)⟩

theorem nextEventLoop_lastEventID (server : SSEServer) :
    ∀ b st input e st',
      nextEventLoop server b st input = .ok (e, st') →
      st'.lastEventID = e.id := by
  intro b
  induction b with
  | zero =>
    intro st input e st' h
    rw [nextEventLoop] at h
    cases hdec : decoderNext input with
    | ok e0 rest =>
      rw [hdec] at h
      injection h with h'
      rw [Prod.mk.injEq] at h'
      obtain ⟨he, hst⟩ := h'
      subst he
      subst hst
      rfl
    | unexpectedEnd e0 =>
      rw [hdec] at h
      cases hc : connect server st with
      | error er => rw [hc] at h; exact absurd h (by simp)
      | ok st1 => rw [hc] at h; exact absurd h (by simp)
  | succ b ih =>
    intro st input e st' h
    rw [nextEventLoop] at h
    cases hdec : decoderNext input with
    | ok e0 rest =>
      rw [hdec] at h
      injection h with h'
      rw [Prod.mk.injEq] at h'
      obtain ⟨he, hst⟩ := h'
      subst he
      subst hst
      rfl
    | unexpectedEnd e0 =>
      rw [hdec] at h
      cases hc : connect server st with
      | error er => rw [hc] at h; exact absurd h (by simp)
      | ok st1 =>
        rw [hc] at h
        exact ih st1 (st1.current.getD []) e st' h

/-- The server of the C10 scenario: the first connection serves an output
event with `id: 1`, then an output event with no id, then closes; later
connections serve `event: done`. -/
def c10Server : SSEServer := fun n _ =>
  if n = 0 then
    ascii "event: output\ndata: foo\nid: 1\n\nevent: output\ndata: bar\n\n"
  else ascii "event: done\n\n"

/-- **C10.** Every successful `NextEvent` overwrites the stored `lastEventID`
with the delivered event's `ID`, even when that `ID` is empty; consequently,
in the C10 scenario — an event with `id: 1` delivered, then an event carrying
no id, then the connection closes — the reconnect sends no `Last-Event-ID`
header at all (`connLog = [none, none]`). -/
theorem nextEvent_lastEventID_overwrite (server : SSEServer)
    (st : StreamerState) (e : Event) (st' : StreamerState)
    (h : nextEvent server st = .ok (e, st')) :
    st'.lastEventID = e.id ∧
      (runStreamer c10Server 3 (newStreamer 1)).1 =
        [.ok ⟨ascii "output", ascii "1", ascii "foo\n"⟩,
          .ok ⟨ascii "output", [], ascii "bar\n"⟩,
          .ok ⟨ascii "done", [], []⟩] ∧
      (runStreamer c10Server 3 (newStreamer 1)).2.connLog = [none, none] := by
  refine ⟨?_, by decide, by decide⟩
  rw [nextEvent] at h
  cases hcur : st.current with
  | none =>
    rw [hcur] at h
    cases hc : connect server st with
    | error er => rw [hc] at h; exact absurd h (by simp)
    | ok st1 =>
      rw [hc] at h
      exact nextEventLoop_lastEventID server _ st1 _ e st' h
  | some input =>
    rw [hcur] at h
    exact nextEventLoop_lastEventID server _ st input e st' h

/-- Witness for C10: the first `NextEvent` of the C10 scenario delivers the
`foo` event with id `1` and the stored `lastEventID` becomes `"1"`. -/
theorem nextEvent_lastEventID_overwrite_witness :
    nextEvent c10Server (newStreamer 1) =
        .ok (⟨ascii "output", ascii "1", ascii "foo\n"⟩,
          ⟨1, 1, ascii "1", some (ascii "event: output\ndata: bar\n\n"),
            [none]⟩) ∧
      (⟨1, 1, ascii "1", some (ascii "event: output\ndata: bar\n\n"),
          [none]⟩ : StreamerState).lastEventID =
        (⟨ascii "output", ascii "1", ascii "foo\n"⟩ : Event).id :=
  ⟨by decide,
    (nextEvent_lastEventID_overwrite c10Server (newStreamer 1)
      ⟨ascii "output", ascii "1", ascii "foo\n"⟩
      ⟨1, 1, ascii "1", some (ascii "event: output\ndata: bar\n\n"), [none]⟩
      (by decide)).1⟩

theorem decodeNextLoop_ok_length :
    ∀ input t i d line e rest, decodeNextLoop t i d line input = .ok e rest →
      rest.length < input.length := by
  intro input
  induction input with
  | nil =>
    intro t i d line e rest h
    exact absurd h (by simp [decodeNextLoop])
  | cons b rest0 ih =>
    intro t i d line e rest h
    simp only [decodeNextLoop] at h
    by_cases hb : b = 10
    · rw [if_pos hb] at h
      by_cases hl : line = []
      · rw [if_pos hl] at h
        injection h with h1 h2
        subst h2
        exact Nat.lt_succ_self _
      · rw [if_neg hl] at h
        split at h
        · exact Nat.lt_succ_of_lt (ih _ _ _ _ _ _ h)
        · split at h
          · exact Nat.lt_succ_of_lt (ih _ _ _ _ _ _ h)
          · split at h
            · exact Nat.lt_succ_of_lt (ih _ _ _ _ _ _ h)
            · exact Nat.lt_succ_of_lt (ih _ _ _ _ _ _ h)
    · rw [if_neg hb] at h
      exact Nat.lt_succ_of_lt (ih _ _ _ _ _ _ h)

theorem decoderNext_ok_length {input : List Nat} {e : Event}
    {rest : List Nat} (h : decoderNext input = .ok e rest) :
    rest.length < input.length :=
  decodeNextLoop_ok_length input [] [] [] [] e rest h

/-- `strings.TrimSuffix(s, "\n")`: remove one trailing LF if present. -/
def trimSuffixNL (l : List Nat) : List Nat :=
  if l.getLast? = some 10 then l.dropLast else l

/-- The only error `streamEventsTo` can emit in this model (the modelled
server answers every request with status 200 and never fails transport):
an event of a type other than output/done/logs. -/
inductive StreamToErr where
  | unknownEventType (ty : List Nat)
deriving DecidableEq, Repr

/-- The `event` struct of stream.go: raw event data, or an error, sent on the
channel from `streamEventsTo` to the projections. -/
structure EventMsg where
  rawData : List Nat
  err : Option StreamToErr
deriving DecidableEq, Repr

/-- Outcome of draining one connection inside `streamEventsTo`'s `ATTEMPT`
loop: the `done` event ended the stream; the connection closed
(`io.EOF`/`io.ErrUnexpectedEOF`) so the loop retries carrying the updated
`lastEventID`; or a fatal unknown-type event ended the stream. -/
inductive DrainOutcome where
  | done
  | retryConn (lastEventID : List Nat)
  | fatal
deriving DecidableEq, Repr

/-- The inner decode loop of `streamEventsTo` (stream.go) over one response
body: decode events with the `internal/sse` decoder, update `lastEventID`
after every decoded event, emit output data on the channel, skip logs, end at
`done`, emit an error and end on an unknown type, and on end-of-stream hand
back the `lastEventID` for the reconnect. -/
def drainConn (lastEventID input : List Nat) : List EventMsg × DrainOutcome :=
  match hdec : decoderNext input with
  | .unexpectedEnd _ => ([], .retryConn lastEventID)
  | .ok e rest =>
    if e.ty = ascii "output" then
      let r := drainConn e.id rest
      (⟨e.data, none⟩ :: r.1, r.2)
    else if e.ty = ascii "done" then ([], .done)
    else if e.ty = ascii "logs" then drainConn e.id rest
    else ([⟨[], some (.unknownEventType e.ty)⟩], .fatal)
termination_by input.length
decreasing_by
  · exact decoderNext_ok_length hdec
  · exact decoderNext_ok_length hdec

/-- The `ATTEMPT` retry loop of `streamEventsTo`: `fuel` is the number of
loop iterations left (`attempt` ranges over `0..maxRetries`, so the loop body
runs at most `maxRetries + 1` times; when the budget runs out the channel is
closed with no further message).  `connIdx` counts established connections
for the server model; the `Last-Event-ID` header is sent exactly when the
carried `lastEventID` is non-empty. -/
def streamEventsLoop (server : SSEServer) :
    Nat → Nat → List Nat → List EventMsg
  | 0, _, _ => []
  | fuel + 1, connIdx, lastEventID =>
    let hdr := if lastEventID ≠ [] then some lastEventID else none
    let body := server connIdx hdr
    let r := drainConn lastEventID body
    match r.2 with
    | .done => r.1
    | .fatal => r.1
    | .retryConn lastEventID' =>
      r.1 ++ streamEventsLoop server fuel (connIdx + 1) lastEventID'

/-- `streamEventsTo` (stream.go): the full sequence of channel messages for a
given server, retry budget and initial `lastEventID`. -/
def streamEventsTo (server : SSEServer) (maxRetries : Nat)
    (lastEventID : List Nat) : List EventMsg :=
  streamEventsLoop server (maxRetries + 1) 0 lastEventID

/-- `streamTextTo` (stream.go): for every channel message, write its raw data
with a single trailing newline stripped; when the channel closes, the pipe
writer is closed and the reader observes a clean `io.EOF` (the error branch
fires only on a pipe write failure, which cannot occur here). -/
def streamTextTo (server : SSEServer) (maxRetries : Nat)
    (lastEventID : List Nat) : List Nat :=
  ((streamEventsTo server maxRetries lastEventID).map
    (fun e => trimSuffixNL e.rawData)).flatten

/-- `defaultMaxRetries` of client.go. -/
def defaultMaxRetries : Nat := 5

/-- The server of the C8 scenario: one connection serving
`"event: output\ndata: foo\n\nevent: done\n\n"`. -/
def c8Server : SSEServer := fun _ _ =>
  ascii "event: output\ndata: foo\n\nevent: done\n\n"

theorem decoderNext_c8_block1 :
    decoderNext (ascii "event: output\ndata: foo\n\nevent: done\n\n") =
      .ok ⟨ascii "output", [], ascii "foo\n"⟩ (ascii "event: done\n\n") := by
  decide

theorem decoderNext_c8_block2 :
    decoderNext (ascii "event: done\n\n") = .ok ⟨ascii "done", [], []⟩ [] := by
  decide

theorem drainConn_done_block :
    drainConn [] (ascii "event: done\n\n") = ([], .done) := by
  rw [drainConn, decoderNext_c8_block2]
  rfl

theorem drainConn_c8 :
    drainConn [] (ascii "event: output\ndata: foo\n\nevent: done\n\n") =
      ([⟨ascii "foo\n", none⟩], .done) := by
  rw [drainConn, decoderNext_c8_block1]
  show (⟨ascii "foo\n", none⟩ :: (drainConn [] (ascii "event: done\n\n")).1,
    (drainConn [] (ascii "event: done\n\n")).2) = _
  rw [drainConn_done_block]

theorem streamEventsTo_c8 :
    streamEventsTo c8Server defaultMaxRetries [] = [⟨ascii "foo\n", none⟩] := by
  simp only [streamEventsTo, defaultMaxRetries, streamEventsLoop, c8Server,
    drainConn_c8]

/-- **C8.** On the wire input `"event: output\ndata: foo\n\nevent: done\n\n"`
the text projection yields exactly the bytes `"foo"` (the output event data
with its single trailing newline stripped); the event channel carries exactly
one message, with no error, and the connection drain ends at the `done` event
— so the pipe is closed cleanly and the reader sees `io.EOF`, not an
error. -/
theorem streamTextTo_end_to_end :
    streamTextTo c8Server defaultMaxRetries [] = ascii "foo" ∧
      streamEventsTo c8Server defaultMaxRetries [] =
        [⟨ascii "foo\n", none⟩] ∧
      (drainConn [] (c8Server 0 none)).2 = .done := by
  refine ⟨?_, streamEventsTo_c8, ?_⟩
  · rw [streamTextTo, streamEventsTo_c8]
    decide
  · show (drainConn [] (ascii "event: output\ndata: foo\n\nevent: done\n\n")).2 =
      .done
    rw [drainConn_c8]

/-- A `streaming.File` handle as produced by the file projections: an inline
data-URI file (`dataURL`), a lazily fetched remote file (`httpURL`), or the
`errWrapper` built by `fileError` carrying a deferred error. -/
inductive FileHandle where
  | dataURL (url : List Nat)
  | httpURL (url : List Nat)
  | errFile (msg : List Nat)
deriving DecidableEq, Repr

/-- What a `File.Body` call performs, described rather than executed:
`inlineData` stands for `dataurl.DecodeString` on the stored URL and
`fetch` for the lazy HTTP GET of `httpURL.Body`. -/
inductive BodyResult where
  | inlineData (url : List Nat)
  | fetch (url : List Nat)
deriving DecidableEq, Repr

/-- `Body(ctx)` on a file handle: `dataURL`/`httpURL` produce their body on
demand; `errWrapper.Body` returns `(nil, e.err)` — the stored error is raised
only here. -/
def fileBody : FileHandle → Except (List Nat) BodyResult
  | .dataURL u => .ok (.inlineData u)
  | .httpURL u => .ok (.fetch u)
  | .errFile msg => .error msg

/-- The classification loop of `streamFilesTo` (stream.go) over the channel
messages: each message's raw data, with one trailing newline stripped, is
classified by prefix — `data:` URI, `http(s)` URL, or otherwise a `fileError`
handle (`"Could not parse URL: ..."`) after which the loop returns. -/
def streamFilesToItems : List EventMsg → List FileHandle
  | [] => []
  | e :: rest =>
    let url := trimSuffixNL e.rawData
    if (ascii "data:").isPrefixOf url then
      .dataURL url :: streamFilesToItems rest
    else if (ascii "http").isPrefixOf url then
      .httpURL url :: streamFilesToItems rest
    else [.errFile (ascii "Could not parse URL: " ++ url)]

/-- `streamFilesTo` (stream.go): the sequence of file handles sent on the
output channel. -/
def streamFilesTo (server : SSEServer) (maxRetries : Nat)
    (lastEventID : List Nat) : List FileHandle :=
  streamFilesToItems (streamEventsTo server maxRetries lastEventID)

/-- **C9 (amended).** In the channel-based file projection (`streamFilesTo`),
an output event whose data is neither a data URI nor an http(s) URL yields a
`fileError` handle on the channel — the parse error is raised only when the
caller asks for that file's body (`Body` returns it), not eagerly at
classification time.  (The `fileStreamer.NextFile` variant instead returns
the parse error eagerly, as its counterexample shows.) -/
theorem streamFilesTo_lazy_parse_error (d : List Nat) (rest : List EventMsg)
    (er : Option StreamToErr)
    (h1 : (ascii "data:").isPrefixOf (trimSuffixNL d) = false)
    (h2 : (ascii "http").isPrefixOf (trimSuffixNL d) = false) :
    streamFilesToItems (⟨d, er⟩ :: rest) =
        [.errFile (ascii "Could not parse URL: " ++ trimSuffixNL d)] ∧
      fileBody (.errFile (ascii "Could not parse URL: " ++ trimSuffixNL d)) =
        .error (ascii "Could not parse URL: " ++ trimSuffixNL d) := by
  constructor
  · rw [streamFilesToItems]
    simp only [h1, h2, Bool.false_eq_true, if_false]
  · rfl

/-- Witness for the amended C9: an output event with data `"bogus\n"` yields
the lazily failing handle. -/
theorem streamFilesTo_lazy_parse_error_witness :
    (ascii "data:").isPrefixOf (trimSuffixNL (ascii "bogus\n")) = false ∧
      (ascii "http").isPrefixOf (trimSuffixNL (ascii "bogus\n")) = false ∧
      streamFilesToItems [⟨ascii "bogus\n", none⟩] =
        [.errFile (ascii "Could not parse URL: " ++
          trimSuffixNL (ascii "bogus\n"))] :=
  ⟨by decide, by decide,
    (streamFilesTo_lazy_parse_error (ascii "bogus\n") [] none (by decide)
      (by decide)).1⟩

theorem nextEventLoop_ok_measure (server : SSEServer) :
    ∀ b st input e st',
      nextEventLoop server b st input = .ok (e, st') →
      st'.maxRetries = st.maxRetries ∧
        ((st'.attempt = st.attempt ∧
            ∃ rest, st'.current = some rest ∧ rest.length < input.length) ∨
          (st.attempt < st'.attempt ∧ st'.attempt ≤ st.maxRetries + 1)) := by
  intro b
  induction b with
  | zero =>
    intro st input e st' h
    rw [nextEventLoop] at h
    cases hdec : decoderNext input with
    | ok e0 rest =>
      rw [hdec] at h
      injection h with h'
      rw [Prod.mk.injEq] at h'
      obtain ⟨he, hst⟩ := h'
      subst hst
      exact ⟨rfl, .inl ⟨rfl, rest, rfl, decoderNext_ok_length hdec⟩⟩
    | unexpectedEnd e0 =>
      rw [hdec] at h
      cases hc : connect server st with
      | error er => rw [hc] at h; exact absurd h (by simp)
      | ok st1 => rw [hc] at h; exact absurd h (by simp)
  | succ b ih =>
    intro st input e st' h
    rw [nextEventLoop] at h
    cases hdec : decoderNext input with
    | ok e0 rest =>
      rw [hdec] at h
      injection h with h'
      rw [Prod.mk.injEq] at h'
      obtain ⟨he, hst⟩ := h'
      subst hst
      exact ⟨rfl, .inl ⟨rfl, rest, rfl, decoderNext_ok_length hdec⟩⟩
    | unexpectedEnd e0 =>
      rw [hdec] at h
      cases hc : connect server st with
      | error er => rw [hc] at h; exact absurd h (by simp)
      | ok st1 =>
        rw [hc] at h
        obtain ⟨hle, hat, hmr, _⟩ := connect_ok_inv hc
        obtain ⟨hmr', hdisj⟩ := ih st1 (st1.current.getD []) e st' h
        refine ⟨hmr' ▸ hmr, .inr ?_⟩
        rcases hdisj with ⟨ha, _⟩ | ⟨ha, hb⟩
        · omega
        · omega

theorem nextEvent_ok_measure (server : SSEServer) (st : StreamerState)
    (e : Event) (st' : StreamerState) (h : nextEvent server st = .ok (e, st')) :
    st'.maxRetries = st.maxRetries ∧
      ((st'.attempt = st.attempt ∧
          (st'.current.getD []).length < (st.current.getD []).length) ∨
        (st.attempt < st'.attempt ∧ st'.attempt ≤ st.maxRetries + 1)) := by
  rw [nextEvent] at h
  cases hcur : st.current with
  | none =>
    rw [hcur] at h
    cases hc : connect server st with
    | error er => rw [hc] at h; exact absurd h (by simp)
    | ok st1 =>
      rw [hc] at h
      obtain ⟨hle, hat, hmr, _⟩ := connect_ok_inv hc
      obtain ⟨hmr', hdisj⟩ := nextEventLoop_ok_measure server _ st1 _ e st' h
      refine ⟨hmr' ▸ hmr, .inr ?_⟩
      rcases hdisj with ⟨ha, _⟩ | ⟨ha, hb⟩
      · omega
      · omega
  | some input =>
    rw [hcur] at h
    obtain ⟨hmr', hdisj⟩ := nextEventLoop_ok_measure server _ st input e st' h
    refine ⟨hmr', ?_⟩
    rcases hdisj with ⟨ha, rest, hcur', hlen⟩ | ⟨ha, hb⟩
    · refine .inl ⟨ha, ?_⟩
      rw [hcur']
      simpa using hlen
    · exact .inr ⟨ha, hb⟩

/-- Errors of `fileStreamer.NextFile`: an error bubbled up from
`Streamer.NextEvent`, a remote error event (`"Error event: %s"`), an
unexpected event type, or — eagerly, from `NextFile` itself — the
could-not-parse-URL error. -/
inductive NextFileErr where
  | streamErr (er : StreamErr)
  | errorEvent (data : List Nat)
  | unexpectedType (ty : List Nat)
  | parseURL (url : List Nat)
deriving DecidableEq, Repr

/-- `fileStreamer.NextFile` (the `FileStreamer` variant of the file
projection): pull events from the `internal/sse` `Streamer`, skipping
empty-typed events; `done` yields `(nil, io.EOF)` (modelled `ok (none, _)`);
an `error` event or an unknown type yields an error; an `output` event's
data, with one trailing newline stripped, is classified by prefix — and when
it is neither a data URI nor an http(s) URL, `NextFile` returns
`("Could not parse URL: ...", nil)` directly, with no file handle.  (The
`f.done` early-return flag of repeated calls after EOF is not modelled; no
claim depends on it.) -/
def fileStreamerNextFile (server : SSEServer) (st : StreamerState) :
    Except NextFileErr (Option FileHandle × StreamerState) :=
  match h : nextEvent server st with
  | .error er => .error (.streamErr er)
  | .ok (e, st') =>
    if e.ty = [] then fileStreamerNextFile server st'
    else if e.ty = ascii "done" then .ok (none, st')
    else if e.ty = ascii "error" then .error (.errorEvent e.data)
    else if e.ty = ascii "output" then
      let url := trimSuffixNL e.data
      if (ascii "data:").isPrefixOf url then .ok (some (.dataURL url), st')
      else if (ascii "http").isPrefixOf url then .ok (some (.httpURL url), st')
      else .error (.parseURL url)
    else .error (.unexpectedType e.ty)
termination_by (st.maxRetries + 1 - st.attempt, (st.current.getD []).length)
decreasing_by
  obtain ⟨hmr, hdisj⟩ := nextEvent_ok_measure server st e st' h
  rcases hdisj with ⟨ha, hl⟩ | ⟨ha, hb⟩
  · rw [hmr, ha]
    exact Prod.Lex.right _ hl
  · exact Prod.Lex.left _ _ (by omega)

/-- The server of the C9 counterexample: one output event whose data
`"bogus"` is neither a data URI nor an http(s) URL. -/
def c9Server : SSEServer := fun _ _ =>
  ascii "event: output\ndata: bogus\n\nevent: done\n\n"

theorem nextEvent_c9 :
    nextEvent c9Server (newStreamer 1) =
      .ok (⟨ascii "output", [], ascii "bogus\n"⟩,
        ⟨1, 1, [], some (ascii "event: done\n\n"), [none]⟩) := by decide

/-- **C9 (counterexample).** `fileStreamer.NextFile` raises the parse error
eagerly, at classification time: on the output event with data `"bogus"` it
returns the `"Could not parse URL: bogus"` error directly instead of a file
handle whose `Body` call would return it. -/
theorem fileStreamerNextFile_eager_parse_error :
    fileStreamerNextFile c9Server (newStreamer 1) =
      .error (.parseURL (ascii "bogus")) := by
  rw [fileStreamerNextFile, nextEvent_c9]
  rfl

/-- The HTTP methods used by the retry-capable request layer. -/
inductive Method where
  | GET
  | POST
  | PATCH
  | DELETE
deriving DecidableEq, Repr

/-- `Client.shouldRetry` (client.go): GET requests are retried if the
response status code is 429 or 5xx; other requests only on 429. -/
def shouldRetry (method : Method) (statusCode : Nat) : Bool :=
  match method with
  | .GET => statusCode == 429 || (500 ≤ statusCode && statusCode < 600)
  | _ => statusCode == 429

/-- Result of `Client.do` (client.go): a successful response unmarshalled to
the caller, the last received `APIError` (identified here by its status
code), or the generic transport failure (`"failed to make request"`). -/
inductive DoResult where
  | success (statusCode : Nat)
  | apiError (statusCode : Nat)
  | requestFailed
deriving DecidableEq, Repr

/-- The do/while retry loop of `Client.do` (client.go), over the successive
response status codes the server answers with (an exhausted list models
`r.c.Do` failing).  A status outside 200–399 is an API error: if the policy
says not to retry it is returned at once; otherwise the loop sleeps (the
backoff/Retry-After delay is unobservable here), increments `attempts`, and
re-enters while `attempts < maxRetries` — when the loop exits, the last
received API error is returned. -/
def clientDoLoop (method : Method) (maxRetries : Nat) :
    Nat → List Nat → DoResult
  | _, [] => .requestFailed
  | attempts, statusCode :: rest =>
    if statusCode < 200 ∨ 400 ≤ statusCode then
      if shouldRetry method statusCode = false then .apiError statusCode
      else if attempts + 1 < maxRetries then
        clientDoLoop method maxRetries (attempts + 1) rest
      else .apiError statusCode
    else .success statusCode

/-- `Client.do` (client.go): run the request with the client's retry policy,
starting from zero attempts. -/
def clientDo (method : Method) (maxRetries : Nat)
    (responses : List Nat) : DoResult :=
  clientDoLoop method maxRetries 0 responses

/-- **C6.** The retry policy: a GET response is retried exactly when its
status is 429 or 5xx; any other method is retried exactly on 429 — and a
POST answered 429 then 500 fails immediately after the 500 with that
response's error, with no further retry (under the default retry budget
of 5). -/
theorem shouldRetry_policy :
    (∀ s : Nat, shouldRetry .GET s = true ↔ (s = 429 ∨ (500 ≤ s ∧ s < 600))) ∧
      (∀ m : Method, m ≠ .GET → ∀ s : Nat,
        shouldRetry m s = true ↔ s = 429) ∧
      clientDo .POST defaultMaxRetries [429, 500] = .apiError 500 := by
  refine ⟨?_, ?_, by decide⟩
  · intro s
    simp [shouldRetry]
  · intro m hm s
    cases m with
    | GET => exact absurd rfl hm
    | POST => simp [shouldRetry]
    | PATCH => simp [shouldRetry]
    | DELETE => simp [shouldRetry]

/-- Witness for C6: a POST answered 500 is not retried (500 ≠ 429), while a
GET answered 500 is. -/
theorem shouldRetry_policy_witness :
    (shouldRetry .POST 500 = true ↔ (500 : Nat) = 429) ∧
      (shouldRetry .GET 500 = true ↔
        ((500 : Nat) = 429 ∨ (500 ≤ (500 : Nat) ∧ (500 : Nat) < 600))) :=
  ⟨shouldRetry_policy.2.1 .POST (by decide) 500, shouldRetry_policy.1 500⟩

/-- `ExponentialBackoff` (backoff.go): `base` and `jitter` are durations in
nanoseconds (`time.Duration`), `multiplier` the exponent base.  Go computes
in `float64`; the model uses exact rationals — for the configuration the
claims exercise (500ms/2/50ms) the float computation of the base term is
exact and the jitter inequalities are unaffected. -/
structure ExponentialBackoff where
  base : ℚ
  multiplier : ℚ
  jitter : ℚ

/-- `ExponentialBackoff.NextDelay` (backoff.go): `u ∈ [0,1)` is the value
drawn by `rand.Float64()`.  Both the scaled jitter and the exponential term
are truncated to integral nanoseconds by the `time.Duration` conversions
(floor, as both are non-negative), and added. -/
def exponentialNextDelay (b : ExponentialBackoff) (retries : Nat) (u : ℚ) :
    ℤ :=
  Int.floor (b.base * b.multiplier ^ retries) + Int.floor (u * b.jitter)

/-- `defaultBackoff` of client.go: Base 500ms, Multiplier 2, Jitter 50ms. -/
def defaultBackoff : ExponentialBackoff := ⟨500000000, 2, 50000000⟩

/-- **C7.** For the exponential backoff with Base = 500ms, Multiplier = 2 and
Jitter = 50ms: `NextDelay(0)` lies in [500ms, 550ms) and `NextDelay(1)` in
[1000ms, 1050ms); in general `NextDelay(n) = Base·2^n + j` with the jitter
`j = ⌊u·Jitter⌋ ∈ [0, Jitter)` for every draw `u ∈ [0,1)`. -/
theorem exponentialNextDelay_bounds (u : ℚ) (h0 : 0 ≤ u) (h1 : u < 1) :
    (500000000 ≤ exponentialNextDelay defaultBackoff 0 u ∧
        exponentialNextDelay defaultBackoff 0 u < 550000000) ∧
      (1000000000 ≤ exponentialNextDelay defaultBackoff 1 u ∧
        exponentialNextDelay defaultBackoff 1 u < 1050000000) ∧
      ∀ n : Nat,
        exponentialNextDelay defaultBackoff n u =
            500000000 * 2 ^ n + Int.floor (u * (50000000 : ℚ)) ∧
          0 ≤ Int.floor (u * (50000000 : ℚ)) ∧
          Int.floor (u * (50000000 : ℚ)) < 50000000 := by
  have hj0 : 0 ≤ Int.floor (u * (50000000 : ℚ)) := by
    apply Int.le_floor.mpr
    push_cast
    positivity
  have hj1 : Int.floor (u * (50000000 : ℚ)) < 50000000 := by
    apply Int.floor_lt.mpr
    push_cast
    nlinarith
  have hgen : ∀ n : Nat,
      exponentialNextDelay defaultBackoff n u =
        500000000 * 2 ^ n + Int.floor (u * (50000000 : ℚ)) := by
    intro n
    rw [exponentialNextDelay]
    congr 1
    rw [show (defaultBackoff.base * defaultBackoff.multiplier ^ n : ℚ) =
        ((500000000 * 2 ^ n : ℤ) : ℚ) by
      rw [defaultBackoff]
      push_cast
      ring]
    exact Int.floor_intCast _
  refine ⟨?_, ?_, fun n => ⟨hgen n, hj0, hj1⟩⟩
  · rw [hgen 0]
    omega
  · rw [hgen 1]
    omega

/-- Witness for C7 at the draw `u = 1/2`. -/
theorem exponentialNextDelay_bounds_witness :
    0 ≤ (1 / 2 : ℚ) ∧ (1 / 2 : ℚ) < 1 ∧
      (500000000 ≤ exponentialNextDelay defaultBackoff 0 (1 / 2) ∧
        exponentialNextDelay defaultBackoff 0 (1 / 2) < 550000000) :=
  ⟨by norm_num, by norm_num,
    (exponentialNextDelay_bounds (1 / 2) (by norm_num) (by norm_num)).1⟩
